import Mathlib

/-!
Verification of the spotify-api-data-pipeline repository against its
natural-language specification.

The program is a one-shot batch pipeline (src/scripts/main.py and
src/scripts/endpoint.py): obtain an OAuth token, page through the
new-releases endpoint following the `next` cursor, flatten nested
album/artist records into rows, serialize to CSV, upload.

Embedding conventions:
- JSON dictionaries are modelled structurally; a key that may be absent
  becomes an `Option` field (Python `d.get(k)` is `Option`-valued access,
  `d[k]` is a fallible lookup returning `Except` with the missing key name,
  mirroring `KeyError`).
- The HTTP layer is abstracted: the finite chain of page responses the
  server serves along the `next`-link chain is passed as a `List Response`;
  the `while request_url:` loop of `get_paginated_new_releases` becomes a
  structurally recursive accumulator loop over that list, recursing exactly
  when the cursor extracted from the current page is truthy.
- Machine-level concerns (sockets, files, S3) are outside all claims and
  are not modelled.
-/

/-- The value of an `external_urls` JSON object: its optional `spotify` key. -/
structure ExtUrls where
  spotify? : Option String
deriving DecidableEq, Repr

/-- An artist record embedded in an album, as read by `main.py`:
`artist["id"]`, `artist["name"]`, `artist["external_urls"]["spotify"]`.
Each field is `Option` because the corresponding key may be absent. -/
structure Artist where
  id? : Option String
  name? : Option String
  external_urls? : Option ExtUrls
deriving DecidableEq, Repr

/-- An album record, as read by `main.py`: `album["id"]`, `album["name"]`,
`album["release_date"]`, `album["external_urls"]["spotify"]`, and
`album.get("artists", [])`. -/
structure Album where
  id? : Option String
  name? : Option String
  release_date? : Option String
  external_urls? : Option ExtUrls
  artists? : Option (List Artist)
deriving DecidableEq, Repr

/-- The value of the `albums` JSON object in a page body:
optional `items` list and optional `next` cursor (an absent key and a JSON
null are both `none`; a JSON-null `albums`/`items` would raise in Python
and is outside the model). -/
structure AlbumsObj where
  items? : Option (List Album)
  next? : Option String
deriving DecidableEq, Repr

/-- One HTTP page response seen by `endpoint.py`: its status code and the
parsed JSON body's optional `albums` object. -/
structure Response where
  status : Nat
  albums? : Option AlbumsObj
deriving DecidableEq, Repr

/-- Python `response_json.get("albums", {}).get("items", [])`. -/
def pageItems (r : Response) : List Album :=
  match r.albums? with
  | none => []
  | some a => a.items?.getD []

/-- Python `response_json.get("albums", {}).get("next")`. -/
def pageNext (r : Response) : Option String :=
  match r.albums? with
  | none => none
  | some a => a.next?

/-- Python truthiness of the cursor in `while request_url:`:
`None` and the empty string are falsy, every other string is truthy. -/
def truthy : Option String → Bool
  | none => false
  | some s => !s.isEmpty

/-- The body of the `while request_url:` loop of
`get_paginated_new_releases` in src/scripts/endpoint.py, with the remaining
server-side page chain made explicit. On a page: a non-200 status prints and
breaks, returning the accumulator; otherwise the page's items are appended
and the loop continues exactly when the new cursor is truthy. -/
def fetchLoop (acc : List Album) : List Response → List Album
  | [] => acc
  | r :: rest =>
    if r.status ≠ 200 then acc
    else
      let acc2 := acc ++ pageItems r
      if truthy (pageNext r) then fetchLoop acc2 rest else acc2

/-- src/scripts/endpoint.py `get_paginated_new_releases`: run the pagination
loop from an empty accumulator over the finite chain of pages the server
serves. -/
def get_paginated_new_releases (pages : List Response) : List Album :=
  fetchLoop [] pages

/-- Python dictionary subscription `d[k]`: `.ok` the value when the key is
present, `.error k` (a `KeyError` carrying the key) when absent. -/
def keyLookup {α : Type} (k : String) : Option α → Except String α
  | some v => .ok v
  | none => .error k

/-- One output row of the flattening comprehension in src/scripts/main.py. -/
structure Row where
  album_id : String
  album_name : String
  release_date : String
  album_spotify_url : String
  artist_id : String
  artist_name : String
  artist_spotify_url : String
deriving DecidableEq, Repr

/-- The dictionary literal built for one (album, artist) pair in the
`flattened_album_details` comprehension of src/scripts/main.py, with the
lookups performed in the literal's evaluation order; the first absent
required key aborts with that key's `KeyError`. -/
def rowOf (album : Album) (artist : Artist) : Except String Row :=
  match album.id? with
  | none => .error "id"
  | some album_id =>
  match album.name? with
  | none => .error "name"
  | some album_name =>
  match album.release_date? with
  | none => .error "release_date"
  | some release_date =>
  match album.external_urls? with
  | none => .error "external_urls"
  | some album_eu =>
  match album_eu.spotify? with
  | none => .error "spotify"
  | some album_spotify_url =>
  match artist.id? with
  | none => .error "id"
  | some artist_id =>
  match artist.name? with
  | none => .error "name"
  | some artist_name =>
  match artist.external_urls? with
  | none => .error "external_urls"
  | some artist_eu =>
  match artist_eu.spotify? with
  | none => .error "spotify"
  | some artist_spotify_url =>
  .ok { album_id, album_name, release_date, album_spotify_url,
        artist_id, artist_name, artist_spotify_url }

/-- Python `album.get("artists", [])`. -/
def albumArtists (al : Album) : List Artist := al.artists?.getD []

/-- The inner `for artist in album.get("artists", [])` of the comprehension:
one row per artist in order, aborting at the first `KeyError`. -/
def albumRows (album : Album) : List Artist → Except String (List Row)
  | [] => .ok []
  | ar :: rest =>
    match rowOf album ar with
    | .error e => .error e
    | .ok r =>
      match albumRows album rest with
      | .error e => .error e
      | .ok rs => .ok (r :: rs)

/-- src/scripts/main.py `flattened_album_details`: the eager list
comprehension `[{...} for album in new_releases for artist in
album.get("artists", [])]` — albums in order, artists within an album in
order, first `KeyError` propagated. -/
def flattened_album_details : List Album → Except String (List Row)
  | [] => .ok []
  | al :: rest =>
    match albumRows al (albumArtists al) with
    | .error e => .error e
    | .ok rs =>
      match flattened_album_details rest with
      | .error e => .error e
      | .ok more => .ok (rs ++ more)

/-- Nested read `d.get("external_urls")?["spotify"]` collapsed to an
`Option`: `some` exactly when `external_urls` is present and holds a
`spotify` key. -/
def spotifyOf (e? : Option ExtUrls) : Option String :=
  match e? with
  | none => none
  | some e => e.spotify?

/-- All keys the comprehension reads on an artist are present. -/
def artistComplete (ar : Artist) : Bool :=
  ar.id?.isSome && ar.name?.isSome && (spotifyOf ar.external_urls?).isSome

/-- All keys the comprehension reads on an album itself are present
(the artist list is not required: `album.get("artists", [])` defaults). -/
def albumFieldsComplete (al : Album) : Bool :=
  al.id?.isSome && al.name?.isSome && al.release_date?.isSome &&
    (spotifyOf al.external_urls?).isSome

/-- The row the comprehension builds for a pair whose required keys are all
present, written with defaults so it is total; it agrees with `rowOf`
whenever `albumFieldsComplete` and `artistComplete` hold. -/
def rowOfD (al : Album) (ar : Artist) : Row :=
  { album_id := al.id?.getD ""
    album_name := al.name?.getD ""
    release_date := al.release_date?.getD ""
    album_spotify_url := (spotifyOf al.external_urls?).getD ""
    artist_id := ar.id?.getD ""
    artist_name := ar.name?.getD ""
    artist_spotify_url := (spotifyOf ar.external_urls?).getD "" }

/-- The token-endpoint response read by `main` in src/scripts/main.py:
its status code and the body's optional `access_token` key. -/
structure TokenResponse where
  status : Nat
  access_token? : Option String
deriving DecidableEq, Repr

/-- The token extraction in `main`: `response.json().get("access_token")`.
The status code is never consulted. -/
def getToken (r : TokenResponse) : Option String := r.access_token?

/-- The data path of `main` in src/scripts/main.py up to the rows handed to
the exporter: extract the token from the token-endpoint response (status
unchecked), call `get_paginated_new_releases` with it — `serve` gives the
page chain the catalog API serves for a given bearer token — and flatten. -/
def main_run (tokenResp : TokenResponse)
    (serve : Option String → List Response) : Except String (List Row) :=
  flattened_album_details (get_paginated_new_releases (serve (getToken tokenResp)))

/-- The artist of the spec's flatten field-mapping example. -/
def specArtist : Artist := ⟨some "ar1", some "Bar", some ⟨some "u2"⟩⟩

/-- The album of the spec's flatten field-mapping example. -/
def specAlbum : Album :=
  ⟨some "al1", some "Foo", some "2024-01-01", some ⟨some "u1"⟩, some [specArtist]⟩

/-- The output row of the spec's flatten field-mapping example. -/
def specRow : Row := ⟨"al1", "Foo", "2024-01-01", "u1", "ar1", "Bar", "u2"⟩

/-- A successful page carrying one album and a truthy `next` cursor. -/
def page1 : Response :=
  ⟨200, some ⟨some [specAlbum], some "https://api.spotify.com/page2"⟩⟩

/-- A successful last page: two albums, `next` null. -/
def page2 : Response := ⟨200, some ⟨some [specAlbum, specAlbum], none⟩⟩

/-- A page answering a non-success status. -/
def pageFail : Response := ⟨503, some ⟨some [specAlbum], none⟩⟩

/-- A successful page whose `albums` object has no `items` key. -/
def pageNoItems : Response := ⟨200, some ⟨none, none⟩⟩

/-- A successful page whose body has no `albums` key at all. -/
def pageNoAlbums : Response := ⟨200, none⟩

/-- A second complete artist, for the cardinality example. -/
def artistA2 : Artist := ⟨some "ar2", some "Baz", some ⟨some "u3"⟩⟩

/-- Album A of the spec's flatten-cardinality example: two artists. -/
def albumA : Album :=
  ⟨some "alA", some "A", some "2024-02-02", some ⟨some "uA"⟩,
    some [specArtist, artistA2]⟩

/-- Album B of the spec's flatten-cardinality example: no `artists` key. -/
def albumB : Album := ⟨some "alB", some "B", some "2024-03-03", some ⟨some "uB"⟩, none⟩

/-- An album missing the required `id` key whose artist list is empty. -/
def albumNoId : Album := ⟨none, some "Foo", some "2024-01-01", some ⟨some "u1"⟩, some []⟩

/-- An album missing the required `id` key that embeds one artist. -/
def albumNoIdWithArtist : Album :=
  ⟨none, some "Foo", some "2024-01-01", some ⟨some "u1"⟩, some [specArtist]⟩

/-- A failed token-endpoint response: status 400, no `access_token` key. -/
def tokenFail : TokenResponse := ⟨400, none⟩

/-- A catalog server that answers one successful last page whatever bearer
token (if any) the request carries. -/
def serveAnyway : Option String → List Response := fun _ => [page2]

/-- A catalog server that denies every request with a non-success page. -/
def serveDenied : Option String → List Response := fun _ => [pageFail]

/-- Modelled from the spec: CSV serialization is delegated to a tabular-data
library whose code is not in src/ (spec 1: out of scope, external
collaborator; spec 4.3: fixed, deterministic column order matching the
Output row field order, header row included, one data row per Output row).
The fixed column order of the Output row in spec section 3. -/
def csvHeader : List String :=
  ["album_id", "album_name", "release_date", "album_spotify_url",
   "artist_id", "artist_name", "artist_spotify_url"]

/-- The seven fields of a row, in the Output row field order of spec
section 3. -/
def rowFields (r : Row) : List String :=
  [r.album_id, r.album_name, r.release_date, r.album_spotify_url,
   r.artist_id, r.artist_name, r.artist_spotify_url]

/-- Characters forcing a CSV field to be quoted (delimiter, quote char,
line-break characters), as in minimal-quoting CSV writers. -/
def isSpecial (c : Char) : Bool :=
  c = ',' || c = '"' || c = '\n' || c = '\r'

/-- Whether a field must be written quoted. -/
def needsQuote (s : List Char) : Bool := s.any isSpecial

/-- Double every quote character inside a quoted field's content. -/
def escapeChars : List Char → List Char
  | [] => []
  | c :: cs => if c = '"' then '"' :: '"' :: escapeChars cs else c :: escapeChars cs

/-- Serialize one CSV field: quoted with doubled inner quotes when it
contains a special character, verbatim otherwise. -/
def fieldChars (s : List Char) : List Char :=
  if needsQuote s then '"' :: (escapeChars s ++ ['"']) else s

/-- Join serialized fields with the comma delimiter. -/
def joinComma : List (List Char) → List Char
  | [] => []
  | [f] => f
  | f :: fs => f ++ ',' :: joinComma fs

/-- Serialize one CSV record (one line, terminator excluded). -/
def recordChars (fs : List String) : List Char :=
  joinComma (fs.map (fun s => fieldChars s.data))

/-- Serialize a list of records, each followed by a newline terminator. -/
def serializeChars (recs : List (List String)) : List Char :=
  recs.foldr (fun r acc => recordChars r ++ '\n' :: acc) []

/-- Modelled from the spec: the Exporter's CSV serialization (spec 4.3) —
the header record of the seven fixed columns followed by one record per
Output row, newline-terminated, minimally quoted. -/
def serializeCSV (rows : List Row) : String :=
  String.mk (serializeChars (csvHeader :: rows.map rowFields))

/-- Parser mode: outside quotes, inside a quoted field, or just past a
quote character inside a quoted field. -/
inductive PMode
  | norm
  | quoted
  | afterQ
deriving DecidableEq, Repr

/-- End the current field: the accumulated characters (kept reversed) become
the next field of the current record (kept reversed). -/
def flushField (fld : List Char) (rec : List String) : List String :=
  String.mk fld.reverse :: rec

/-- Character-level CSV reader (RFC 4180 conventions: comma delimiter,
newline record terminator, doubled quotes inside quoted fields), used to
state what parsing the produced CSV yields. State: remaining input, mode,
current field (reversed), current record (reversed), finished records
(reversed). -/
def pAux : List Char → PMode → List Char → List String →
    List (List String) → List (List String)
  | [], .norm, [], [], recs => recs.reverse
  | [], _, fld, rec, recs => ((flushField fld rec).reverse :: recs).reverse
  | c :: cs, .norm, fld, rec, recs =>
    if c = ',' then pAux cs .norm [] (flushField fld rec) recs
    else if c = '\n' then pAux cs .norm [] [] ((flushField fld rec).reverse :: recs)
    else if c = '"' then pAux cs .quoted fld rec recs
    else pAux cs .norm (c :: fld) rec recs
  | c :: cs, .quoted, fld, rec, recs =>
    if c = '"' then pAux cs .afterQ fld rec recs
    else pAux cs .quoted (c :: fld) rec recs
  | c :: cs, .afterQ, fld, rec, recs =>
    if c = '"' then pAux cs .quoted ('"' :: fld) rec recs
    else if c = ',' then pAux cs .norm [] (flushField fld rec) recs
    else if c = '\n' then pAux cs .norm [] [] ((flushField fld rec).reverse :: recs)
    else pAux cs .norm (c :: fld) rec recs

/-- Parse a CSV document into its records of fields. -/
def parseCSV (s : String) : List (List String) :=
  pAux s.data .norm [] [] []

/-- Unfolding of one loop iteration on a successful page. -/
theorem fetchLoop_cons_ok (r : Response) (rest : List Response) (acc : List Album)
    (h200 : r.status = 200) :
    fetchLoop acc (r :: rest) =
      if truthy (pageNext r) then fetchLoop (acc ++ pageItems r) rest
      else acc ++ pageItems r := by
  simp [fetchLoop, h200]

/-- The accumulator of the pagination loop only ever grows on the right. -/
theorem fetchLoop_append (pages : List Response) :
    ∀ acc : List Album, fetchLoop acc pages = acc ++ fetchLoop [] pages := by
  induction pages with
  | nil => intro acc; simp [fetchLoop]
  | cons r rest ih =>
    intro acc
    by_cases h : r.status = 200
    · rw [fetchLoop_cons_ok r rest acc h, fetchLoop_cons_ok r rest [] h]
      by_cases ht : truthy (pageNext r) = true
      · rw [if_pos ht, if_pos ht, ih (acc ++ pageItems r), ih ([] ++ pageItems r)]
        simp
      · rw [if_neg ht, if_neg ht]
        simp
    · simp [fetchLoop, h]

/-- A finite chain of pages: every page but the last carries a truthy `next`
cursor, and the last page's `next` is null or absent. -/
def PageChain : List Response → Prop
  | [] => True
  | [r] => pageNext r = none
  | r :: rest => truthy (pageNext r) = true ∧ PageChain rest

/-- Claim C1: over a finite chain of pages all fetched with status 200 whose
last page has a null or absent `next`, `get_paginated_new_releases`
terminates (it is a total function of the chain) and returns exactly the
concatenation of the pages' item lists — server page order and within-page
order preserved, no deduplication (the result is literally the join, so a
repeated item appears once per serving). -/
theorem pagination_termination (pages : List Response)
    (hs : ∀ r ∈ pages, r.status = 200) (hc : PageChain pages) :
    get_paginated_new_releases pages = (pages.map pageItems).flatten := by
  induction pages with
  | nil => rfl
  | cons r rest ih =>
    have h200 : r.status = 200 := hs r (List.mem_cons_self r rest)
    cases rest with
    | nil =>
      have hn : pageNext r = none := hc
      show fetchLoop [] [r] = _
      rw [fetchLoop_cons_ok r [] [] h200, hn]
      simp [truthy]
    | cons r2 rest2 =>
      obtain ⟨ht, hrest⟩ := hc
      have ih2 := ih (fun x hx => hs x (List.mem_cons_of_mem r hx)) hrest
      show fetchLoop [] (r :: r2 :: rest2) = _
      rw [fetchLoop_cons_ok r (r2 :: rest2) [] h200, if_pos ht,
        fetchLoop_append (r2 :: rest2) ([] ++ pageItems r)]
      show _ ++ get_paginated_new_releases (r2 :: rest2) = _
      rw [ih2]
      simp

/-- Witness for C1: a two-page chain (page 2 has `next` null) yields the
concatenation of both pages' items. -/
theorem pagination_termination_witness :
    get_paginated_new_releases [page1, page2] = ([page1, page2].map pageItems).flatten :=
  pagination_termination [page1, page2] (by decide) ⟨rfl, rfl⟩

/-- Claim C2: if the pages before page k succeed with truthy cursors and
page k answers a non-success status, pagination stops at page k and the
result is exactly the items accumulated from the earlier pages; no
exception reaches the caller (the function is total and returns normally). -/
theorem pagination_short_circuit (good : List Response) (bad : Response)
    (rest : List Response)
    (hg : ∀ r ∈ good, r.status = 200 ∧ truthy (pageNext r) = true)
    (hb : bad.status ≠ 200) :
    get_paginated_new_releases (good ++ bad :: rest) = (good.map pageItems).flatten := by
  induction good with
  | nil => simp [get_paginated_new_releases, fetchLoop, hb]
  | cons g t ih =>
    obtain ⟨h200, ht⟩ := hg g (List.mem_cons_self g t)
    have ih2 := ih (fun x hx => hg x (List.mem_cons_of_mem g hx))
    show fetchLoop [] (g :: (t ++ bad :: rest)) = _
    rw [fetchLoop_cons_ok g (t ++ bad :: rest) [] h200, if_pos ht,
      fetchLoop_append (t ++ bad :: rest) ([] ++ pageItems g)]
    show _ ++ get_paginated_new_releases (t ++ bad :: rest) = _
    rw [ih2]
    simp

/-- Witness for C2: page 2 failing yields exactly page 1's items; the call
returns normally. -/
theorem pagination_short_circuit_witness :
    get_paginated_new_releases ([page1] ++ pageFail :: []) =
      ([page1].map pageItems).flatten :=
  pagination_short_circuit [page1] pageFail [] (by decide) (by decide)

/-- Claim C3: a successful page whose `albums` object lacks the `items` key
contributes nothing to the accumulator, and pagination continues or ends
according to the page's `next` field; no exception is raised (the loop is a
total function). -/
theorem pagination_missing_items (r : Response) (a : AlbumsObj)
    (rest : List Response) (acc : List Album)
    (h200 : r.status = 200) (ha : r.albums? = some a) (hi : a.items? = none) :
    fetchLoop acc (r :: rest) =
      if truthy a.next? then fetchLoop acc rest else acc := by
  have hit : pageItems r = [] := by simp [pageItems, ha, hi]
  have hnx : pageNext r = a.next? := by simp [pageNext, ha]
  rw [fetchLoop_cons_ok r rest acc h200, hit, hnx]
  simp

/-- Witness for C3: a 200 page with no `items` and no `next` leaves the
accumulator unchanged. -/
theorem pagination_missing_items_witness :
    fetchLoop [specAlbum] [pageNoItems] = [specAlbum] := by
  have h := pagination_missing_items pageNoItems ⟨none, none⟩ [] [specAlbum]
    rfl rfl rfl
  simpa [truthy] using h

/-- Claim C10: a successful response whose body lacks the `albums` key
entirely is treated as a terminal empty page: no items are appended, the
extracted cursor is null, pagination ends, and whatever was accumulated so
far is returned, without error. -/
theorem pagination_missing_albums (r : Response) (rest : List Response)
    (acc : List Album) (h200 : r.status = 200) (ha : r.albums? = none) :
    pageItems r = [] ∧ pageNext r = none ∧ fetchLoop acc (r :: rest) = acc := by
  have hit : pageItems r = [] := by simp [pageItems, ha]
  have hnx : pageNext r = none := by simp [pageNext, ha]
  refine ⟨hit, hnx, ?_⟩
  rw [fetchLoop_cons_ok r rest acc h200, hit, hnx]
  simp [truthy]

/-- Witness for C10: a 200 response with no `albums` key, followed by more
pages that are never visited, returns the accumulator as-is. -/
theorem pagination_missing_albums_witness :
    pageItems pageNoAlbums = [] ∧ pageNext pageNoAlbums = none ∧
      fetchLoop [specAlbum] [pageNoAlbums, page1] = [specAlbum] :=
  pagination_missing_albums pageNoAlbums [page1] [specAlbum] rfl rfl

/-- A pair whose required keys are all present flattens to the default-free
row `rowOfD`. -/
theorem rowOf_eq_ok (al : Album) (ar : Artist)
    (ha : albumFieldsComplete al = true) (hr : artistComplete ar = true) :
    rowOf al ar = .ok (rowOfD al ar) := by
  simp only [albumFieldsComplete, artistComplete, Bool.and_eq_true] at ha hr
  obtain ⟨⟨⟨ha1, ha2⟩, ha3⟩, ha4⟩ := ha
  obtain ⟨⟨hr1, hr2⟩, hr3⟩ := hr
  obtain ⟨a1, e1⟩ := Option.isSome_iff_exists.mp ha1
  obtain ⟨a2, e2⟩ := Option.isSome_iff_exists.mp ha2
  obtain ⟨a3, e3⟩ := Option.isSome_iff_exists.mp ha3
  obtain ⟨a4, e4⟩ := Option.isSome_iff_exists.mp ha4
  obtain ⟨r1, f1⟩ := Option.isSome_iff_exists.mp hr1
  obtain ⟨r2, f2⟩ := Option.isSome_iff_exists.mp hr2
  obtain ⟨r4, f4⟩ := Option.isSome_iff_exists.mp hr3
  cases heu : al.external_urls? with
  | none => rw [heu] at e4; simp [spotifyOf] at e4
  | some eu =>
    rw [heu] at e4
    simp only [spotifyOf] at e4
    cases hru : ar.external_urls? with
    | none => rw [hru] at f4; simp [spotifyOf] at f4
    | some ru =>
      rw [hru] at f4
      simp only [spotifyOf] at f4
      simp [rowOf, rowOfD, spotifyOf, e1, e2, e3, e4, f1, f2, f4, heu, hru]

/-- A run of artists whose keys are all present maps cleanly to rows. -/
theorem albumRows_ok (al : Album) (l : List Artist)
    (ha : albumFieldsComplete al = true)
    (hl : ∀ ar ∈ l, artistComplete ar = true) :
    albumRows al l = .ok (l.map (rowOfD al)) := by
  induction l with
  | nil => rfl
  | cons ar t ih =>
    simp only [albumRows, rowOf_eq_ok al ar ha (hl ar (List.mem_cons_self ar t)),
      ih (fun x hx => hl x (List.mem_cons_of_mem ar hx)), List.map_cons]

/-- On complete records the flattening succeeds and is the flatten of the
per-album row maps. -/
theorem flatten_ok (albums : List Album)
    (hc : ∀ al ∈ albums, albumFieldsComplete al = true ∧
      ∀ ar ∈ albumArtists al, artistComplete ar = true) :
    flattened_album_details albums =
      .ok ((albums.map (fun al => (albumArtists al).map (rowOfD al))).flatten) := by
  induction albums with
  | nil => rfl
  | cons al t ih =>
    obtain ⟨h1, h2⟩ := hc al (List.mem_cons_self al t)
    simp only [flattened_album_details, albumRows_ok al (albumArtists al) h1 h2,
      ih (fun x hx => hc x (List.mem_cons_of_mem al hx)), List.map_cons,
      List.flatten_cons]

/-- Claim C4: when every album and embedded artist carries all required
keys, flattening succeeds, the result is the in-order flatten of the
per-album artist row maps (so per-album artist order is preserved and an
album with an empty or absent artist list contributes zero rows), and the
row count is the sum over albums of the number of embedded artists. -/
theorem flatten_cardinality (albums : List Album)
    (hc : ∀ al ∈ albums, albumFieldsComplete al = true ∧
      ∀ ar ∈ albumArtists al, artistComplete ar = true) :
    flattened_album_details albums =
      .ok ((albums.map (fun al => (albumArtists al).map (rowOfD al))).flatten) ∧
    ((albums.map (fun al => (albumArtists al).map (rowOfD al))).flatten).length =
      (albums.map (fun al => (albumArtists al).length)).sum := by
  refine ⟨flatten_ok albums hc, ?_⟩
  rw [List.length_flatten, List.map_map]
  simp [Function.comp_def, List.length_map]

/-- Witness for C4: album A with two artists and album B with no artist
list flatten to 2 + 0 rows. -/
theorem flatten_cardinality_witness :
    flattened_album_details [albumA, albumB] =
      .ok (([albumA, albumB].map (fun al => (albumArtists al).map (rowOfD al))).flatten) ∧
    (([albumA, albumB].map (fun al => (albumArtists al).map (rowOfD al))).flatten).length =
      ([albumA, albumB].map (fun al => (albumArtists al).length)).sum :=
  flatten_cardinality [albumA, albumB] (by decide)

/-- Claim C5: for a pair with all required keys present, the comprehension
emits the row mapping the album's `id`, `name`, `release_date` and
`external_urls.spotify` to `album_id`, `album_name`, `release_date`,
`album_spotify_url` and the artist's `id`, `name`, `external_urls.spotify`
to `artist_id`, `artist_name`, `artist_spotify_url`; for a one-album,
one-artist input the flattening returns exactly that row. -/
theorem flatten_field_mapping (al : Album) (ar : Artist)
    (aid an rd au ri rn ru : String)
    (h1 : al.id? = some aid) (h2 : al.name? = some an)
    (h3 : al.release_date? = some rd) (h4 : spotifyOf al.external_urls? = some au)
    (h5 : ar.id? = some ri) (h6 : ar.name? = some rn)
    (h7 : spotifyOf ar.external_urls? = some ru) :
    rowOf al ar = .ok ⟨aid, an, rd, au, ri, rn, ru⟩ ∧
      (al.artists? = some [ar] →
        flattened_album_details [al] = .ok [⟨aid, an, rd, au, ri, rn, ru⟩]) := by
  have hc1 : albumFieldsComplete al = true := by
    simp [albumFieldsComplete, h1, h2, h3, h4]
  have hc2 : artistComplete ar = true := by
    simp [artistComplete, h5, h6, h7]
  have hrow : rowOfD al ar = ⟨aid, an, rd, au, ri, rn, ru⟩ := by
    simp [rowOfD, h1, h2, h3, h4, h5, h6, h7]
  have hmain : rowOf al ar = .ok ⟨aid, an, rd, au, ri, rn, ru⟩ := by
    rw [rowOf_eq_ok al ar hc1 hc2, hrow]
  refine ⟨hmain, fun h8 => ?_⟩
  have hart : albumArtists al = [ar] := by simp [albumArtists, h8]
  have hr2 : albumRows al (albumArtists al) = .ok [⟨aid, an, rd, au, ri, rn, ru⟩] := by
    rw [hart]
    simp [albumRows, hmain]
  simp [flattened_album_details, hr2]

/-- Witness for C5: the spec's concrete album/row example. -/
theorem flatten_field_mapping_witness :
    flattened_album_details [specAlbum] = .ok [specRow] :=
  (flatten_field_mapping specAlbum specArtist "al1" "Foo" "2024-01-01" "u1"
    "ar1" "Bar" "u2" rfl rfl rfl rfl rfl rfl rfl).2 rfl

/-- Counterexample to claim C6 as stated: an album missing the required
`id` key whose artist list is empty produces no lookup error — the
comprehension iterates artists before reading album fields, so the record's
keys are never read and flattening succeeds with zero rows. -/
theorem flatten_missing_field_counterexample :
    albumNoId.id? = none ∧ flattened_album_details [albumNoId] = .ok [] :=
  ⟨rfl, rfl⟩

/-- A pair with a required key absent on either side evaluates to a lookup
error carrying the missing key. -/
theorem rowOf_error (al : Album) (ar : Artist)
    (h : albumFieldsComplete al = false ∨ artistComplete ar = false) :
    ∃ e, rowOf al ar = .error e := by
  rcases al with ⟨aid, aname, adate, aeu, arts⟩
  rcases ar with ⟨rid, rname, reu⟩
  rcases aid with _ | a1
  · exact ⟨"id", rfl⟩
  rcases aname with _ | a2
  · exact ⟨"name", rfl⟩
  rcases adate with _ | a3
  · exact ⟨"release_date", rfl⟩
  rcases aeu with _ | aeu
  · exact ⟨"external_urls", rfl⟩
  rcases aeu with ⟨asp⟩
  rcases asp with _ | a4
  · exact ⟨"spotify", rfl⟩
  rcases rid with _ | r1
  · exact ⟨"id", rfl⟩
  rcases rname with _ | r2
  · exact ⟨"name", rfl⟩
  rcases reu with _ | reu
  · exact ⟨"external_urls", rfl⟩
  rcases reu with ⟨rsp⟩
  rcases rsp with _ | r4
  · exact ⟨"spotify", rfl⟩
  exfalso
  simp [albumFieldsComplete, artistComplete, spotifyOf] at h

/-- An erroring pair anywhere in the artist list makes the whole artist run
error. -/
theorem albumRows_error (al : Album) (l : List Artist)
    (h : ∃ ar ∈ l, ∃ e, rowOf al ar = .error e) :
    ∃ e, albumRows al l = .error e := by
  induction l with
  | nil => simp at h
  | cons ar0 t ih =>
    cases he : rowOf al ar0 with
    | error e => exact ⟨e, by simp [albumRows, he]⟩
    | ok r =>
      obtain ⟨ar, hmem, e, herr⟩ := h
      rcases List.mem_cons.mp hmem with rfl | hmem2
      · rw [he] at herr; cases herr
      · obtain ⟨e2, h2⟩ := ih ⟨ar, hmem2, e, herr⟩
        exact ⟨e2, by simp [albumRows, he, h2]⟩

/-- An erroring album run anywhere in the album list makes the whole
flattening error. -/
theorem flatten_error (albums : List Album)
    (h : ∃ al ∈ albums, ∃ e, albumRows al (albumArtists al) = .error e) :
    ∃ e, flattened_album_details albums = .error e := by
  induction albums with
  | nil => simp at h
  | cons al0 t ih =>
    cases he : albumRows al0 (albumArtists al0) with
    | error e => exact ⟨e, by simp [flattened_album_details, he]⟩
    | ok rs =>
      obtain ⟨al, hmem, e, herr⟩ := h
      rcases List.mem_cons.mp hmem with rfl | hmem2
      · rw [he] at herr; cases herr
      · obtain ⟨e2, h2⟩ := ih ⟨al, hmem2, e, herr⟩
        exact ⟨e2, by simp [flattened_album_details, he, h2]⟩

/-- Claim C6 amended: the flattening fails with a lookup error (which
propagates — the result is `.error`, no default is substituted) whenever a
required key is absent from an album that embeds at least one artist, or
from an artist appearing in some album's artist list; an album whose artist
list is empty or absent never has its keys read, so a missing key there
raises nothing. -/
theorem flatten_missing_field_error (albums : List Album)
    (h : ∃ al ∈ albums, ∃ ar ∈ albumArtists al,
      albumFieldsComplete al = false ∨ artistComplete ar = false) :
    ∃ e, flattened_album_details albums = .error e := by
  obtain ⟨al, hal, ar, har, hmiss⟩ := h
  have h1 := rowOf_error al ar hmiss
  have h2 := albumRows_error al (albumArtists al) ⟨ar, har, h1⟩
  exact flatten_error albums ⟨al, hal, h2⟩

/-- Witness for amended C6: an album missing `id` that embeds one artist
makes the flattening error. -/
theorem flatten_missing_field_error_witness :
    ∃ e, flattened_album_details [albumNoIdWithArtist] = .error e :=
  flatten_missing_field_error [albumNoIdWithArtist]
    ⟨albumNoIdWithArtist, by decide, specArtist, by decide, by decide⟩

/-- Counterexample to claim C7 as stated: for the token-endpoint response
with status 400 and no `access_token`, `main` neither fails nor stops — it
extracts a null token, proceeds to fetch new releases with it, and the
pipeline completes normally with the rows the catalog happened to serve. -/
theorem token_failure_counterexample :
    tokenFail.status ≠ 200 ∧ getToken tokenFail = none ∧
      main_run tokenFail serveAnyway = .ok [specRow, specRow] := by
  refine ⟨by decide, rfl, ?_⟩
  rfl

/-- Claim C7 amended: on a token-endpoint response with non-success status,
`main` does not fail and has no fallback either: it reads `access_token`
from the body regardless of the status (null when absent) and proceeds to
fetch new releases with that missing token; when the catalog then denies
the first page, the pipeline continues and completes normally with an empty
result. -/
theorem token_failure_proceeds (tr : TokenResponse)
    (serve : Option String → List Response) (p : Response) (rest : List Response)
    (h1 : tr.status ≠ 200) (h2 : tr.access_token? = none)
    (h3 : serve none = p :: rest) (h4 : p.status ≠ 200) :
    main_run tr serve = .ok [] := by
  unfold main_run getToken
  rw [h2, h3]
  show flattened_album_details (fetchLoop [] (p :: rest)) = _
  rw [show fetchLoop [] (p :: rest) = [] from by simp [fetchLoop, h4]]
  rfl

/-- Witness for amended C7: failed token, catalog denies the request, the
pipeline still returns an (empty) result normally. -/
theorem token_failure_proceeds_witness :
    main_run tokenFail serveDenied = .ok [] :=
  token_failure_proceeds tokenFail serveDenied pageFail [] (by decide) rfl rfl
    (by decide)

/-- Step: a quote in quoted mode switches to the after-quote state. -/
theorem pAux_quoted_quote (cs : List Char) (fld : List Char) (rec : List String)
    (recs : List (List String)) :
    pAux ('"' :: cs) .quoted fld rec recs = pAux cs .afterQ fld rec recs := by
  simp [pAux]

/-- Step: a second quote right after a quote is a literal quote character. -/
theorem pAux_afterQ_quote (cs : List Char) (fld : List Char) (rec : List String)
    (recs : List (List String)) :
    pAux ('"' :: cs) .afterQ fld rec recs = pAux cs .quoted ('"' :: fld) rec recs := by
  simp [pAux]

/-- Step: any other character in quoted mode is field content. -/
theorem pAux_quoted_other (c : Char) (hc : c ≠ '"') (cs : List Char)
    (fld : List Char) (rec : List String) (recs : List (List String)) :
    pAux (c :: cs) .quoted fld rec recs = pAux cs .quoted (c :: fld) rec recs := by
  simp [pAux, hc]

/-- Step: a comma outside quotes ends the current field. -/
theorem pAux_norm_comma (cs : List Char) (fld : List Char) (rec : List String)
    (recs : List (List String)) :
    pAux (',' :: cs) .norm fld rec recs =
      pAux cs .norm [] (flushField fld rec) recs := by
  simp [pAux]

/-- Step: a newline outside quotes ends the field and the record. -/
theorem pAux_norm_newline (cs : List Char) (fld : List Char) (rec : List String)
    (recs : List (List String)) :
    pAux ('\n' :: cs) .norm fld rec recs =
      pAux cs .norm [] [] ((flushField fld rec).reverse :: recs) := by
  simp [pAux]

/-- Step: a quote outside quotes opens a quoted stretch. -/
theorem pAux_norm_quote (cs : List Char) (fld : List Char) (rec : List String)
    (recs : List (List String)) :
    pAux ('"' :: cs) .norm fld rec recs = pAux cs .quoted fld rec recs := by
  simp [pAux]

/-- Step: an ordinary character outside quotes is field content. -/
theorem pAux_norm_other (c : Char) (h1 : c ≠ ',') (h2 : c ≠ '\n') (h3 : c ≠ '"')
    (cs : List Char) (fld : List Char) (rec : List String)
    (recs : List (List String)) :
    pAux (c :: cs) .norm fld rec recs = pAux cs .norm (c :: fld) rec recs := by
  simp [pAux, h1, h2, h3]

/-- Step: a comma right after a closing quote ends the field. -/
theorem pAux_afterQ_comma (cs : List Char) (fld : List Char) (rec : List String)
    (recs : List (List String)) :
    pAux (',' :: cs) .afterQ fld rec recs =
      pAux cs .norm [] (flushField fld rec) recs := by
  simp [pAux]

/-- Step: a newline right after a closing quote ends field and record. -/
theorem pAux_afterQ_newline (cs : List Char) (fld : List Char) (rec : List String)
    (recs : List (List String)) :
    pAux ('\n' :: cs) .afterQ fld rec recs =
      pAux cs .norm [] [] ((flushField fld rec).reverse :: recs) := by
  simp [pAux]

/-- Step: exhausted input in the initial state yields the finished records. -/
theorem pAux_nil (recs : List (List String)) :
    pAux [] .norm [] [] recs = recs.reverse := by
  simp [pAux]

/-- Inside a quoted field the reader undoes quote doubling: consuming the
escaped content appends the original content to the field accumulator and
stays in quoted mode. -/
theorem pAux_escape (s : List Char) :
    ∀ rest fld rec recs, pAux (escapeChars s ++ rest) .quoted fld rec recs =
      pAux rest .quoted (s.reverse ++ fld) rec recs := by
  induction s with
  | nil => intro rest fld rec recs; simp [escapeChars]
  | cons c cs ih =>
    intro rest fld rec recs
    by_cases hc : c = '"'
    · subst hc
      rw [show escapeChars ('"' :: cs) = '"' :: '"' :: escapeChars cs from by
          simp [escapeChars],
        List.cons_append, List.cons_append, pAux_quoted_quote, pAux_afterQ_quote, ih]
      simp
    · rw [show escapeChars (c :: cs) = c :: escapeChars cs from by
          simp [escapeChars, hc],
        List.cons_append, pAux_quoted_other c hc, ih]
      simp

/-- Outside quotes a run of non-special characters is consumed verbatim
into the field accumulator. -/
theorem pAux_raw (s : List Char) (hs : ∀ c ∈ s, isSpecial c = false) :
    ∀ rest fld rec recs, pAux (s ++ rest) .norm fld rec recs =
      pAux rest .norm (s.reverse ++ fld) rec recs := by
  induction s with
  | nil => intro rest fld rec recs; simp
  | cons c cs ih =>
    intro rest fld rec recs
    have hc := hs c (List.mem_cons_self c cs)
    simp only [isSpecial, Bool.or_eq_false_iff, decide_eq_false_iff_not] at hc
    obtain ⟨⟨⟨hc1, hc2⟩, hc3⟩, _⟩ := hc
    rw [List.cons_append, pAux_norm_other c hc1 hc3 hc2,
      ih (fun x hx => hs x (List.mem_cons_of_mem c hx))]
    simp

/-- Consuming one serialized field followed by a comma flushes exactly that
field onto the current record. -/
theorem pAux_field_comma (s : String) (rest : List Char) (rec : List String)
    (recs : List (List String)) :
    pAux (fieldChars s.data ++ ',' :: rest) .norm [] rec recs =
      pAux rest .norm [] (s :: rec) recs := by
  obtain ⟨sd⟩ := s
  by_cases hq : needsQuote sd = true
  · rw [show fieldChars (String.data ⟨sd⟩) ++ ',' :: rest
        = '"' :: (escapeChars sd ++ ('"' :: ',' :: rest)) from by
      simp [fieldChars, hq]]
    rw [pAux_norm_quote, pAux_escape, pAux_quoted_quote, pAux_afterQ_comma]
    simp [flushField]
  · have hs : ∀ c ∈ sd, isSpecial c = false := by
      have hq2 : needsQuote sd = false := by
        cases hv : needsQuote sd
        · rfl
        · exact absurd hv hq
      simpa [needsQuote] using hq2
    rw [show fieldChars (String.data ⟨sd⟩) ++ ',' :: rest = sd ++ ',' :: rest from by
      simp [fieldChars, hq]]
    rw [pAux_raw sd hs, pAux_norm_comma]
    simp [flushField]

/-- Consuming one serialized field followed by a newline flushes the field
and closes the current record. -/
theorem pAux_field_newline (s : String) (rest : List Char) (rec : List String)
    (recs : List (List String)) :
    pAux (fieldChars s.data ++ '\n' :: rest) .norm [] rec recs =
      pAux rest .norm [] [] ((s :: rec).reverse :: recs) := by
  obtain ⟨sd⟩ := s
  by_cases hq : needsQuote sd = true
  · rw [show fieldChars (String.data ⟨sd⟩) ++ '\n' :: rest
        = '"' :: (escapeChars sd ++ ('"' :: '\n' :: rest)) from by
      simp [fieldChars, hq]]
    rw [pAux_norm_quote, pAux_escape, pAux_quoted_quote, pAux_afterQ_newline]
    simp [flushField]
  · have hs : ∀ c ∈ sd, isSpecial c = false := by
      have hq2 : needsQuote sd = false := by
        cases hv : needsQuote sd
        · rfl
        · exact absurd hv hq
      simpa [needsQuote] using hq2
    rw [show fieldChars (String.data ⟨sd⟩) ++ '\n' :: rest = sd ++ '\n' :: rest from by
      simp [fieldChars, hq]]
    rw [pAux_raw sd hs, pAux_norm_newline]
    simp [flushField]

/-- Consuming one serialized nonempty record and its newline terminator
closes exactly that record. -/
theorem pAux_record (f : String) (t : List String) :
    ∀ rest rec recs, pAux (recordChars (f :: t) ++ '\n' :: rest) .norm [] rec recs =
      pAux rest .norm [] [] (((f :: t).reverse ++ rec).reverse :: recs) := by
  induction t generalizing f with
  | nil =>
    intro rest rec recs
    rw [show recordChars [f] = fieldChars f.data from by simp [recordChars, joinComma]]
    rw [pAux_field_newline]
    simp
  | cons g t2 ih =>
    intro rest rec recs
    rw [show recordChars (f :: g :: t2) = fieldChars f.data ++ ',' :: recordChars (g :: t2)
        from by simp [recordChars, joinComma]]
    rw [List.append_assoc, List.cons_append, pAux_field_comma, ih g]
    simp

/-- Consuming a serialized list of nonempty records appends them, in order,
to the finished-record accumulator. -/
theorem pAux_records (rs : List (List String)) (h : ∀ r ∈ rs, r ≠ []) :
    ∀ recs, pAux (serializeChars rs) .norm [] [] recs = recs.reverse ++ rs := by
  induction rs with
  | nil => intro recs; simp [serializeChars, pAux_nil]
  | cons r t ih =>
    intro recs
    obtain ⟨f, t2, rfl⟩ : ∃ f t2, r = f :: t2 := by
      cases r with
      | nil => exact absurd rfl (h [] (List.mem_cons_self [] t))
      | cons f t2 => exact ⟨f, t2, rfl⟩
    rw [show serializeChars ((f :: t2) :: t)
        = recordChars (f :: t2) ++ '\n' :: serializeChars t from by
      simp [serializeChars]]
    rw [pAux_record f t2 (serializeChars t) [] recs,
      ih (fun x hx => h x (List.mem_cons_of_mem _ hx))]
    simp

/-- Parsing the serialized CSV of any row list recovers the header record
followed by each row's fields in order. -/
theorem parse_serializeCSV (rows : List Row) :
    parseCSV (serializeCSV rows) = csvHeader :: rows.map rowFields := by
  show pAux (serializeChars (csvHeader :: rows.map rowFields)) .norm [] [] [] = _
  rw [pAux_records (csvHeader :: rows.map rowFields) ?hne []]
  · simp
  case hne =>
    intro r hr
    rcases List.mem_cons.mp hr with rfl | hmem
    · simp [csvHeader]
    · obtain ⟨row, _, rfl⟩ := List.mem_map.mp hmem
      simp [rowFields]

/-- Claim C8: for every row list, the exported CSV consists of a header
record first — the columns exactly `album_id`, `album_name`,
`release_date`, `album_spotify_url`, `artist_id`, `artist_name`,
`artist_spotify_url` in that order — followed by one data record per output
row. -/
theorem csv_export_shape (rows : List Row) :
    (parseCSV (serializeCSV rows)).head? =
      some ["album_id", "album_name", "release_date", "album_spotify_url",
        "artist_id", "artist_name", "artist_spotify_url"] ∧
    (parseCSV (serializeCSV rows)).length = rows.length + 1 := by
  rw [parse_serializeCSV]
  exact ⟨rfl, by simp⟩

/-- Claim C9: CSV serialization round-trips — parsing the serialized CSV of
any N rows yields, after the header record, exactly N records equal
field-for-field to the input rows. -/
theorem csv_round_trip (rows : List Row) :
    parseCSV (serializeCSV rows) = csvHeader :: rows.map rowFields ∧
    (parseCSV (serializeCSV rows)).tail = rows.map rowFields := by
  rw [parse_serializeCSV]
  exact ⟨rfl, rfl⟩
